import Mathlib

/-!
Verification of the flightrecorder capture-to-storage pipeline.

This file shallowly embeds the core data model and operations of the
flightrecorder repository (capture monitors, privacy filter, persistent
store) and proves properties about them.

Modelling conventions:
* Rust `String` contents handled by the monitors are modelled at the byte
  level as `List Nat` (each entry a byte value), since the monitors use
  byte lengths (`str::len`) and byte slicing (`&text[..k]`), whose
  semantics (including the char-boundary panic) are byte-level.
* A Rust operation that can panic is modelled with `PanicOr`, where
  `PanicOr.panicked` marks the panic.
* External library calls (the blake3 hash, compiled regexes, chrono
  RFC3339 parsing/printing) are modelled as explicit function parameters;
  the repository code treats them as opaque deterministic functions.
* Storage-level strings (already-hashed digests, RFC3339 timestamp text,
  SQL TEXT columns) are modelled as Lean `String`.
-/

/-- Result of a Rust computation that may panic. `panicked` models a Rust
panic (such as a byte-slice at a non-char-boundary index). -/
inductive PanicOr (α : Type) where
  | panicked : PanicOr α
  | ok : α → PanicOr α
deriving DecidableEq, Repr

/-- A Rust UTF-8 continuation byte lies in `0x80..0xBF`. -/
def isContinuationByte (b : Nat) : Bool :=
  decide (128 ≤ b) && decide (b < 192)

/-- Model of `str::is_char_boundary` on a byte sequence: index `0` and the
end of the string are boundaries, an interior index is a boundary exactly
when the byte there is not a continuation byte, and an index past the end
is not a boundary. -/
def isCharBoundary (s : List Nat) (k : Nat) : Bool :=
  if k = 0 then true
  else
    match s.drop k with
    | [] => decide (k = s.length)
    | b :: _ => ! isContinuationByte b

/-- Model of the Rust byte slice `&s[..k]`: the first `k` bytes when `k`
is a char boundary of `s`, and a panic otherwise. -/
def byteSlice (s : List Nat) (k : Nat) : PanicOr (List Nat) :=
  if isCharBoundary s k then .ok (s.take k) else .panicked

/-- Configuration of the clipboard monitor
(`flightrecorder-mac/src/clipboard.rs`, `ClipboardMonitorConfig`). The
poll interval is kept in milliseconds; it does not affect per-sample
processing. -/
structure ClipboardMonitorConfig where
  poll_interval_ms : Nat
  min_content_length : Nat
  max_content_length : Nat
deriving DecidableEq, Repr

/-- Default clipboard monitor configuration (500 ms, min 1, max 1_000_000). -/
def ClipboardMonitorConfig.default : ClipboardMonitorConfig :=
  { poll_interval_ms := 500, min_content_length := 1, max_content_length := 1000000 }

/-- A captured clipboard entry (`ClipboardCapture`). The timestamp is an
abstract instant (`Utc::now()` is supplied by the caller as `now`). -/
structure ClipboardCapture where
  content : List Nat
  content_hash : List Nat
  timestamp : Nat
  source_app : Option (List Nat)
deriving DecidableEq, Repr

/-- Model of `ClipboardCapture::new`: the content hash is computed from the
content handed in, by the hash function `hash` (modelling blake3 hex). -/
def ClipboardCapture.new (hash : List Nat → List Nat) (now : Nat)
    (content : List Nat) (source_app : Option (List Nat)) : ClipboardCapture :=
  { content := content, content_hash := hash content, timestamp := now,
    source_app := source_app }

/-- In-memory monitor state of `ClipboardMonitor`: the running flag and the
fingerprint of the most recently emitted capture. -/
structure ClipboardMonitorState where
  running : Bool
  last_hash : Option (List Nat)
deriving DecidableEq, Repr

/-- Truncation step shared by the monitors: keep `text` unchanged when its
byte length is within `max_length`, otherwise take the byte slice
`&text[..max_length]` (which panics off a char boundary). -/
def truncateStep (text : List Nat) (max_length : Nat) : PanicOr (List Nat) :=
  if text.length > max_length then byteSlice text max_length else .ok text

/-- Model of `ClipboardMonitor::process_text_with_source`: drop content
shorter than the minimum (before truncation), truncate over-long content,
hash the (possibly truncated) content, suppress when it equals `last_hash`,
and otherwise update `last_hash` and emit a capture. -/
def ClipboardMonitor.process_text_with_source (hash : List Nat → List Nat)
    (now : Nat) (cfg : ClipboardMonitorConfig) (st : ClipboardMonitorState)
    (text : List Nat) (source_app : Option (List Nat)) :
    PanicOr (ClipboardMonitorState × Option ClipboardCapture) :=
  if text.length < cfg.min_content_length then .ok (st, none)
  else
    match truncateStep text cfg.max_content_length with
    | .panicked => .panicked
    | .ok content =>
      let h := hash content
      if st.last_hash = some h then .ok (st, none)
      else .ok ({ st with last_hash := some h },
                some (ClipboardCapture.new hash now content source_app))

/-- Model of the free function `process_content` in `clipboard.rs`: `none`
when the content is below the minimum length, otherwise the (possibly
truncated) content. -/
def process_content (text : List Nat) (min_length max_length : Nat) :
    PanicOr (Option (List Nat)) :=
  if text.length < min_length then .ok none
  else
    match truncateStep text max_length with
    | .panicked => .panicked
    | .ok content => .ok (some content)

/-- Configuration of the accessibility (focused text field) monitor
(`flightrecorder-mac/src/accessibility.rs`, `AccessibilityMonitorConfig`). -/
structure AccessibilityMonitorConfig where
  snapshot_interval_s : Nat
  skip_password_fields : Bool
  min_content_length : Nat
  max_content_length : Nat
deriving DecidableEq, Repr

/-- Snapshot of the focused text field handed to `process_field`. -/
structure FocusedTextField where
  content : List Nat
  source_app : Option (List Nat)
  is_password : Bool
deriving DecidableEq, Repr

/-- A captured text field entry (`TextFieldCapture`). -/
structure TextFieldCapture where
  content : List Nat
  content_hash : List Nat
  timestamp : Nat
  source_app : Option (List Nat)
  is_password_field : Bool
deriving DecidableEq, Repr

/-- Model of `TextFieldCapture::new`: hash computed from the content
handed in. -/
def TextFieldCapture.new (hash : List Nat → List Nat) (now : Nat)
    (content : List Nat) (source_app : Option (List Nat))
    (is_password_field : Bool) : TextFieldCapture :=
  { content := content, content_hash := hash content, timestamp := now,
    source_app := source_app, is_password_field := is_password_field }

/-- In-memory monitor state of `AccessibilityMonitor`. -/
structure AccessibilityMonitorState where
  running : Bool
  last_hash : Option (List Nat)
deriving DecidableEq, Repr

/-- Model of `AccessibilityMonitor::process_field`: skip password fields
when configured, drop content shorter than the minimum (before
truncation), truncate over-long content, hash it, suppress on `last_hash`
equality, otherwise update `last_hash` and emit. -/
def AccessibilityMonitor.process_field (hash : List Nat → List Nat)
    (now : Nat) (cfg : AccessibilityMonitorConfig)
    (st : AccessibilityMonitorState) (field : FocusedTextField) :
    PanicOr (AccessibilityMonitorState × Option TextFieldCapture) :=
  if field.is_password && cfg.skip_password_fields then .ok (st, none)
  else if field.content.length < cfg.min_content_length then .ok (st, none)
  else
    match truncateStep field.content cfg.max_content_length with
    | .panicked => .panicked
    | .ok content =>
      let h := hash content
      if st.last_hash = some h then .ok (st, none)
      else .ok ({ st with last_hash := some h },
                some (TextFieldCapture.new hash now content field.source_app
                  field.is_password))

/-- Outcome of the synchronous entry of a monitor `start` call, before the
polling loop runs: either the call warned that the monitor is already
running and returned `Ok(())`, or it proceeded into the polling loop, or it
returned an error with the given message. -/
inductive MonitorStartStep where
  | warned_already_running : MonitorStartStep
  | began_polling : MonitorStartStep
  | failed : String → MonitorStartStep
deriving DecidableEq, Repr

/-- Whether the start entry corresponds to the Rust call returning `Ok`. -/
def MonitorStartStep.is_ok : MonitorStartStep → Bool
  | .failed _ => false
  | _ => true

/-- Entry of `ClipboardMonitor::start`: `running.swap(true)` and, when the
old value was `true`, a warning plus `Ok(())`. The pair is the new value of
the running flag and the outcome. -/
def ClipboardMonitor.start_entry (running : Bool) : Bool × MonitorStartStep :=
  if running then (true, .warned_already_running) else (true, .began_polling)

/-- Entry of `AccessibilityMonitor::start`: a permission check failing with
`PermissionDenied` comes first, then the same swap-and-warn guard. -/
def AccessibilityMonitor.start_entry (has_permission running : Bool) :
    Bool × MonitorStartStep :=
  if !has_permission then
    (running, .failed "accessibility permission not granted")
  else if running then (true, .warned_already_running)
  else (true, .began_polling)

/-- Entry of `MacClipboardMonitor::start` (`monitor.rs`): when the old
running flag was `true` the call returns `Err("Already running")`. -/
def MacClipboardMonitor.start_entry (running : Bool) : Bool × MonitorStartStep :=
  if running then (true, .failed "Already running") else (true, .began_polling)

/-- Entry of `MacAccessibilityMonitor::start` (`monitor.rs`): a permission
check first, then `Err("Already running")` when the flag was set. -/
def MacAccessibilityMonitor.start_entry (has_permission running : Bool) :
    Bool × MonitorStartStep :=
  if !has_permission then (running, .failed "Accessibility permission required")
  else if running then (true, .failed "Already running")
  else (true, .began_polling)

/-- A compiled regex (the external `regex::Regex`), modelled by its two
observable operations: matching and global replacement. -/
structure CompiledRegex where
  is_match : String → Bool
  replace_all : String → String → String

/-- A named privacy filter pattern (`privacy/patterns.rs`, `FilterPattern`). -/
structure FilterPattern where
  name : String
  description : String
  regex : CompiledRegex

/-- Model of `FilterPattern::matches`. -/
def FilterPattern.matches (p : FilterPattern) (content : String) : Bool :=
  p.regex.is_match content

/-- Model of `FilterPattern::redact`. -/
def FilterPattern.redact (p : FilterPattern) (content placeholder : String) : String :=
  p.regex.replace_all content placeholder

/-- The compiled regexes of the eleven built-in patterns, one field per
pattern, supplied abstractly (the regex engine is an external library). -/
structure BuiltinRegexes where
  api_key_generic : CompiledRegex
  bearer_token : CompiledRegex
  aws_key : CompiledRegex
  aws_secret : CompiledRegex
  password_field : CompiledRegex
  credit_card : CompiledRegex
  ssn : CompiledRegex
  private_key : CompiledRegex
  github_token : CompiledRegex
  slack_token : CompiledRegex
  connection_string : CompiledRegex

/-- Model of `builtin_patterns()`: the eleven built-in patterns in their
declared order, with their declared names and descriptions. -/
def builtin_patterns (c : BuiltinRegexes) : List FilterPattern :=
  [ { name := "api_key_generic",
      description := "Generic API key patterns (api_key=, apikey=, etc.)",
      regex := c.api_key_generic },
    { name := "bearer_token",
      description := "Bearer authentication tokens",
      regex := c.bearer_token },
    { name := "aws_key",
      description := "AWS access key IDs",
      regex := c.aws_key },
    { name := "aws_secret",
      description := "AWS secret access keys",
      regex := c.aws_secret },
    { name := "password_field",
      description := "Password field assignments",
      regex := c.password_field },
    { name := "credit_card",
      description := "Credit card numbers (Visa, MasterCard, Amex, Discover)",
      regex := c.credit_card },
    { name := "ssn",
      description := "US Social Security Numbers",
      regex := c.ssn },
    { name := "private_key",
      description := "PEM-encoded private keys",
      regex := c.private_key },
    { name := "github_token",
      description := "GitHub personal access tokens and app tokens",
      regex := c.github_token },
    { name := "slack_token",
      description := "Slack API tokens",
      regex := c.slack_token },
    { name := "connection_string",
      description := "Database connection strings with credentials",
      regex := c.connection_string } ]

/-- The declared names of the built-in patterns, in declaration order. -/
def builtin_pattern_names : List String :=
  [ "api_key_generic", "bearer_token", "aws_key", "aws_secret",
    "password_field", "credit_card", "ssn", "private_key", "github_token",
    "slack_token", "connection_string" ]

/-- Model of `default_excluded_apps()`. -/
def default_excluded_apps : List String :=
  [ "1Password", "1Password 7", "1Password 8", "Bitwarden", "LastPass",
    "Dashlane", "KeePassXC", "Keychain Access", "Authenticator",
    "Google Authenticator", "Microsoft Authenticator", "Authy", "Terminal",
    "iTerm2", "Alacritty", "Warp" ]

/-- Filter mode (`privacy/filter.rs`, `FilterMode`). -/
inductive FilterMode where
  | Block : FilterMode
  | Redact : FilterMode
  | WarnOnly : FilterMode
deriving DecidableEq, Repr

/-- Result of filtering content (`privacy/filter.rs`, `FilterResult`). -/
inductive FilterResult where
  | Passed : FilterResult
  | Blocked : (pattern_name : String) → FilterResult
  | Redacted : (content : String) → (redacted_patterns : List String) → FilterResult
deriving DecidableEq, Repr

/-- Configuration of the privacy filter (`FilterConfig`). -/
structure FilterConfig where
  enabled : Bool
  mode : FilterMode
  use_builtin_patterns : Bool
  custom_patterns : List String
  excluded_apps : List String
  redaction_placeholder : String

/-- Model of `FilterConfig::default()`. -/
def FilterConfig.default : FilterConfig :=
  { enabled := true, mode := .Block, use_builtin_patterns := true,
    custom_patterns := [], excluded_apps := default_excluded_apps,
    redaction_placeholder := "[REDACTED]" }

/-- The privacy filter (`PrivacyFilter`): its configuration, the built-in
patterns in use, and the successfully compiled custom regexes. -/
structure PrivacyFilter where
  config : FilterConfig
  patterns : List FilterPattern
  custom_regexes : List CompiledRegex

/-- Model of `PrivacyFilter::with_config`, parameterised by the regex
compiler `compile` (`Regex::new`; `none` models a compilation error, and
such patterns are dropped) and the built-in compiled regexes. -/
def PrivacyFilter.with_config (compile : String → Option CompiledRegex)
    (c : BuiltinRegexes) (config : FilterConfig) : PrivacyFilter :=
  { config := config,
    patterns := if config.use_builtin_patterns then builtin_patterns c else [],
    custom_regexes := config.custom_patterns.filterMap compile }

/-- Model of ASCII lowercasing of one char (`u8::to_ascii_lowercase`,
lifted to chars; ASCII case folding only touches ASCII bytes, so the
char-level and byte-level foldings agree on UTF-8 text). -/
def asciiLower (ch : Char) : Char :=
  if 65 ≤ ch.toNat ∧ ch.toNat ≤ 90 then Char.ofNat (ch.toNat + 32) else ch

/-- Model of `str::eq_ignore_ascii_case`. -/
def eqIgnoreAsciiCase (a b : String) : Bool :=
  a.data.map asciiLower == b.data.map asciiLower

/-- Model of `PrivacyFilter::is_app_excluded`: some excluded entry equals
the app name up to ASCII case. -/
def PrivacyFilter.is_app_excluded (f : PrivacyFilter) (app_name : String) : Bool :=
  f.config.excluded_apps.any (fun excluded => eqIgnoreAsciiCase excluded app_name)

/-- First loop of `filter_block`: the name of the first built-in pattern
matching the content. -/
def firstBuiltinMatch : List FilterPattern → String → Option String
  | [], _ => none
  | p :: ps, content =>
    if p.matches content then some p.name else firstBuiltinMatch ps content

/-- Second loop of `filter_block`: the first matching custom regex, named
by its index (`custom_{i}`), starting the enumeration at `i`. -/
def firstCustomMatch : Nat → List CompiledRegex → String → Option String
  | _, [], _ => none
  | i, r :: rs, content =>
    if r.is_match content then some ("custom_" ++ toString i)
    else firstCustomMatch (i + 1) rs content

/-- Model of `PrivacyFilter::filter_block`: built-in patterns checked
first, then custom patterns, first match wins, otherwise `Passed`. -/
def PrivacyFilter.filter_block (f : PrivacyFilter) (content : String) : FilterResult :=
  match firstBuiltinMatch f.patterns content with
  | some n => .Blocked n
  | none =>
    match firstCustomMatch 0 f.custom_regexes content with
    | some n => .Blocked n
    | none => .Passed

/-- One step of the redaction fold over built-in patterns. -/
def redactBuiltinStep (placeholder : String) (acc : String × List String)
    (p : FilterPattern) : String × List String :=
  if p.matches acc.1 then (p.redact acc.1 placeholder, acc.2 ++ [p.name]) else acc

/-- One step of the redaction fold over the enumerated custom regexes. -/
def redactCustomStep (placeholder : String) (acc : String × List String)
    (ir : Nat × CompiledRegex) : String × List String :=
  if ir.2.is_match acc.1 then
    (ir.2.replace_all acc.1 placeholder, acc.2 ++ ["custom_" ++ toString ir.1])
  else acc

/-- Model of `PrivacyFilter::filter_redact`: every matching pattern
(built-in, then custom) replaces its matches, accumulating the fired
pattern names; `Passed` when nothing fired. -/
def PrivacyFilter.filter_redact (f : PrivacyFilter) (content : String) : FilterResult :=
  let step1 := f.patterns.foldl (redactBuiltinStep f.config.redaction_placeholder)
    (content, [])
  let step2 := f.custom_regexes.enum.foldl
    (redactCustomStep f.config.redaction_placeholder) step1
  if step2.2.isEmpty then .Passed else .Redacted step2.1 step2.2

/-- Model of `PrivacyFilter::filter_warn`: warnings only, always `Passed`. -/
def PrivacyFilter.filter_warn (_f : PrivacyFilter) (_content : String) : FilterResult :=
  .Passed

/-- Model of `PrivacyFilter::filter`: `Passed` when disabled, otherwise
dispatch on the mode. -/
def PrivacyFilter.filter (f : PrivacyFilter) (content : String) : FilterResult :=
  if !f.config.enabled then .Passed
  else
    match f.config.mode with
    | .Block => f.filter_block content
    | .Redact => f.filter_redact content
    | .WarnOnly => f.filter_warn content

/-- The custom regexes as patterns named `custom_{i}` in enumeration
order; used to state the first-match specification of `filter_block`. -/
def customPatternList (rs : List CompiledRegex) : List FilterPattern :=
  rs.enum.map (fun ir =>
    { name := "custom_" ++ toString ir.1, description := "", regex := ir.2 })

/-- Capture type (`capture.rs`, `CaptureType`). -/
inductive CaptureType where
  | Clipboard : CaptureType
  | TextField : CaptureType
  | Keystroke : CaptureType
deriving DecidableEq, Repr

/-- Model of the `Display` impl of `CaptureType`. -/
def CaptureType.display : CaptureType → String
  | .Clipboard => "clipboard"
  | .TextField => "text_field"
  | .Keystroke => "keystroke"

/-- A capture record (`capture.rs`, `Capture`). The timestamp is an
abstract UTC instant; the content and its hex digest are storage-level
strings. -/
structure Capture where
  id : Option Int
  timestamp : Nat
  source_app : Option String
  content : String
  content_hash : String
  capture_type : CaptureType
deriving DecidableEq, Repr

/-- Model of `Capture::new`, parameterised by the content hash function
(blake3 hex digest) and the current instant. -/
def Capture.new (hashS : String → String) (now : Nat) (content : String)
    (capture_type : CaptureType) (source_app : Option String) : Capture :=
  { id := none, timestamp := now, source_app := source_app,
    content := content, content_hash := hashS content,
    capture_type := capture_type }

/-- One row of the `captures` table. The timestamp column holds RFC3339
text (SQLite TEXT); its string order models the SQLite BINARY collation,
which agrees with Lean string order on this ASCII data. -/
structure Row where
  id : Int
  timestamp : String
  source_app : Option String
  content : String
  content_hash : String
  capture_type : String
deriving DecidableEq, Repr

/-- The storage database state: the rows of the `captures` table in rowid
order, and the next rowid SQLite will assign. -/
structure StorageDB where
  rows : List Row
  next_rowid : Int
deriving DecidableEq, Repr

/-- Model of `Storage::exists_by_hash`: `SELECT COUNT(*) ... WHERE
content_hash = ?` compared against zero. -/
def Storage.exists_by_hash (db : StorageDB) (h : String) : Bool :=
  decide (0 < (db.rows.filter (fun r => r.content_hash == h)).length)

/-- The row written by the `INSERT INTO captures` statement of
`Storage::insert`: the capture fields, with the timestamp printed by
`to_rfc3339` and the capture type by its `Display` impl, under the rowid
SQLite assigns. -/
def Capture.toRow (to_rfc3339 : Nat → String) (rowid : Int)
    (capture : Capture) : Row :=
  { id := rowid, timestamp := to_rfc3339 capture.timestamp,
    source_app := capture.source_app, content := capture.content,
    content_hash := capture.content_hash,
    capture_type := capture.capture_type.display }

/-- Model of `Storage::insert`, parameterised by the RFC3339 printer
(`DateTime::to_rfc3339`): when a row with the capture content hash already
exists the database is unchanged and no id is returned; otherwise one row
is appended and its new rowid returned. -/
def Storage.insert (to_rfc3339 : Nat → String) (db : StorageDB)
    (capture : Capture) : StorageDB × Option Int :=
  if Storage.exists_by_hash db capture.content_hash then (db, none)
  else
    ({ rows := db.rows ++ [Capture.toRow to_rfc3339 db.next_rowid capture],
       next_rowid := db.next_rowid + 1 },
     some db.next_rowid)

/-- The SQL ordering `ORDER BY timestamp DESC` as a relation on rows. -/
def rowTsGe (a b : Row) : Prop := b.timestamp ≤ a.timestamp

instance : DecidableRel rowTsGe := fun a b =>
  inferInstanceAs (Decidable (b.timestamp ≤ a.timestamp))

instance : IsTotal Row rowTsGe := ⟨fun a b => le_total b.timestamp a.timestamp⟩

instance : IsTrans Row rowTsGe :=
  ⟨fun _ _ _ hab hbc => le_trans hbc hab⟩

/-- The rows ordered by `ORDER BY timestamp DESC`. -/
def sortByTsDesc (rows : List Row) : List Row :=
  List.insertionSort rowTsGe rows

/-- Model of `Storage::prune_keep_recent`: `DELETE FROM captures WHERE id
NOT IN (SELECT id FROM captures ORDER BY timestamp DESC LIMIT n)`,
returning the pruned database and the number of rows the DELETE affected. -/
def Storage.prune_keep_recent (db : StorageDB) (keep_count : Nat) :
    StorageDB × Nat :=
  let keep := ((sortByTsDesc db.rows).take keep_count).map (fun r => r.id)
  let remaining := db.rows.filter (fun r => keep.contains r.id)
  ({ db with rows := remaining }, db.rows.length - remaining.length)

/-- Model of the `capture_type` decoding in `Storage::row_to_capture`: an
unknown string decodes (with a warning) as `Clipboard`. -/
def parseCaptureType (s : String) : CaptureType :=
  if s == "clipboard" then .Clipboard
  else if s == "text_field" then .TextField
  else if s == "keystroke" then .Keystroke
  else .Clipboard

/-- Model of `Storage::row_to_capture`, parameterised by the RFC3339
parser (`DateTime::parse_from_rfc3339`, `none` on parse failure) and the
current instant: a timestamp that fails to parse falls back to `now`, and
the function always succeeds. -/
def Storage.row_to_capture (parse_rfc3339 : String → Option Nat) (now : Nat)
    (row : Row) : Except String Capture :=
  .ok { id := some row.id,
        timestamp := (parse_rfc3339 row.timestamp).getD now,
        source_app := row.source_app, content := row.content,
        content_hash := row.content_hash,
        capture_type := parseCaptureType row.capture_type }

/-- Model of `Storage::get`: look the row up by id and decode it. -/
def Storage.get (parse_rfc3339 : String → Option Nat) (now : Nat)
    (db : StorageDB) (id : Int) : Except String (Option Capture) :=
  match db.rows.find? (fun r => r.id == id) with
  | none => .ok none
  | some row => (Storage.row_to_capture parse_rfc3339 now row).map some

/-- Model of `Storage::get_recent`: newest-first rows up to the limit,
each decoded by `row_to_capture`. -/
def Storage.get_recent (parse_rfc3339 : String → Option Nat) (now : Nat)
    (db : StorageDB) (limit : Nat) : Except String (List Capture) :=
  ((sortByTsDesc db.rows).take limit).mapM
    (Storage.row_to_capture parse_rfc3339 now)

/-- A compiled regex that never matches, used to instantiate the abstract
regex parameters at concrete inputs. -/
def neverRegex : CompiledRegex :=
  { is_match := fun _ => false, replace_all := fun s _ => s }

/-- Built-in regex slots all instantiated with `neverRegex`. -/
def trivialBuiltins : BuiltinRegexes :=
  { api_key_generic := neverRegex, bearer_token := neverRegex,
    aws_key := neverRegex, aws_secret := neverRegex,
    password_field := neverRegex, credit_card := neverRegex,
    ssn := neverRegex, private_key := neverRegex, github_token := neverRegex,
    slack_token := neverRegex, connection_string := neverRegex }

/-- C1: `Storage::insert` returns `None` and leaves the database unchanged
when a row with the capture content hash exists anywhere in the stored
history; otherwise it appends exactly one row and returns the new id; in
particular, inserting the same content twice stores exactly one new row
and the second insert returns `None`. -/
theorem insert_dedups_on_content_hash :
    (∀ (to_rfc3339 : Nat → String) (db : StorageDB) (capture : Capture),
      Storage.exists_by_hash db capture.content_hash = true →
      Storage.insert to_rfc3339 db capture = (db, none)) ∧
    (∀ (to_rfc3339 : Nat → String) (db : StorageDB) (capture : Capture),
      Storage.exists_by_hash db capture.content_hash = false →
      Storage.insert to_rfc3339 db capture =
        ({ rows := db.rows ++ [Capture.toRow to_rfc3339 db.next_rowid capture],
           next_rowid := db.next_rowid + 1 }, some db.next_rowid)) ∧
    (∀ (to_rfc3339 : Nat → String) (hashS : String → String)
       (now now2 : Nat) (content : String) (ty ty2 : CaptureType)
       (app app2 : Option String) (db db2 : StorageDB) (i : Int),
      Storage.insert to_rfc3339 db (Capture.new hashS now content ty app) =
        (db2, some i) →
      Storage.insert to_rfc3339 db2 (Capture.new hashS now2 content ty2 app2) =
        (db2, none) ∧ db2.rows.length = db.rows.length + 1) := by
  refine ⟨?_, ?_, ?_⟩
  · intro to_rfc3339 db capture hex
    simp [Storage.insert, hex]
  · intro to_rfc3339 db capture hex
    simp [Storage.insert, hex]
  · intro to_rfc3339 hashS now now2 content ty ty2 app app2 db db2 i h
    by_cases hex : Storage.exists_by_hash db
        (Capture.new hashS now content ty app).content_hash = true
    · simp [Storage.insert, hex] at h
    · simp only [Storage.insert] at h
      rw [if_neg hex] at h
      have hdb2 : db2 =
          { rows := db.rows ++
                [Capture.toRow to_rfc3339 db.next_rowid
                  (Capture.new hashS now content ty app)],
            next_rowid := db.next_rowid + 1 } :=
        (Prod.ext_iff.mp h).1.symm
      constructor
      · rw [hdb2]
        simp [Storage.insert, Storage.exists_by_hash, List.filter_append,
          Capture.new, Capture.toRow]
      · rw [hdb2]
        simp

/-- C2: every capture emitted by a monitor carries a content hash computed
from the stored (possibly truncated) content; concretely, with maximum
length 5 the text "1234567890" is stored as "12345" and the hash taken
after truncation differs from the hash of the pre-truncation original. -/
theorem content_hash_is_of_stored_content :
    (∀ (hash : List Nat → List Nat) (now : Nat) (cfg : ClipboardMonitorConfig)
       (st st2 : ClipboardMonitorState) (text : List Nat)
       (app : Option (List Nat)) (cap : ClipboardCapture),
      ClipboardMonitor.process_text_with_source hash now cfg st text app =
        .ok (st2, some cap) →
      cap.content_hash = hash cap.content ∧
      truncateStep text cfg.max_content_length = .ok cap.content) ∧
    (∀ (hash : List Nat → List Nat) (now : Nat) (cfg : AccessibilityMonitorConfig)
       (st st2 : AccessibilityMonitorState) (field : FocusedTextField)
       (cap : TextFieldCapture),
      AccessibilityMonitor.process_field hash now cfg st field =
        .ok (st2, some cap) →
      cap.content_hash = hash cap.content ∧
      truncateStep field.content cfg.max_content_length = .ok cap.content) ∧
    (ClipboardMonitor.process_text_with_source (fun s => s) 0
        { poll_interval_ms := 500, min_content_length := 1, max_content_length := 5 }
        { running := true, last_hash := none }
        [49, 50, 51, 52, 53, 54, 55, 56, 57, 48] none =
      .ok ({ running := true, last_hash := some [49, 50, 51, 52, 53] },
        some { content := [49, 50, 51, 52, 53],
               content_hash := [49, 50, 51, 52, 53], timestamp := 0,
               source_app := none }) ∧
      ([49, 50, 51, 52, 53] : List Nat) ≠
        [49, 50, 51, 52, 53, 54, 55, 56, 57, 48]) := by
  refine ⟨?_, ?_, by decide⟩
  · intro hash now cfg st st2 text app cap h
    by_cases hlen : text.length < cfg.min_content_length
    · simp [ClipboardMonitor.process_text_with_source, hlen] at h
    · cases ht : truncateStep text cfg.max_content_length with
      | panicked => simp [ClipboardMonitor.process_text_with_source, hlen, ht] at h
      | ok content =>
        by_cases hsame : st.last_hash = some (hash content)
        · simp [ClipboardMonitor.process_text_with_source, hlen, ht, hsame] at h
        · simp [ClipboardMonitor.process_text_with_source, hlen, ht, hsame] at h
          obtain ⟨-, hcap⟩ := h
          rw [← hcap]
          exact ⟨rfl, rfl⟩
  · intro hash now cfg st st2 field cap h
    by_cases hpw : field.is_password && cfg.skip_password_fields
    · simp [AccessibilityMonitor.process_field, hpw] at h
    · by_cases hlen : field.content.length < cfg.min_content_length
      · simp [AccessibilityMonitor.process_field, hpw, hlen] at h
      · cases ht : truncateStep field.content cfg.max_content_length with
        | panicked => simp [AccessibilityMonitor.process_field, hpw, hlen, ht] at h
        | ok content =>
          by_cases hsame : st.last_hash = some (hash content)
          · simp [AccessibilityMonitor.process_field, hpw, hlen, ht, hsame] at h
          · simp [AccessibilityMonitor.process_field, hpw, hlen, ht, hsame] at h
            obtain ⟨-, hcap⟩ := h
            rw [← hcap]
            exact ⟨rfl, rfl⟩

/-- C1 witness: an empty store accepts a capture and assigns rowid 1, and
re-inserting the same content is deduplicated, leaving exactly one row. -/
theorem insert_dedups_on_content_hash_witness :
    Storage.insert (fun _ => "2024-01-01T00:00:00+00:00")
        { rows := [], next_rowid := 1 }
        (Capture.new (fun s => s) 0 "hello" .Clipboard none) =
      ({ rows := [{ id := 1, timestamp := "2024-01-01T00:00:00+00:00",
                    source_app := none, content := "hello",
                    content_hash := "hello", capture_type := "clipboard" }],
         next_rowid := 2 }, some 1) ∧
    Storage.insert (fun _ => "2024-01-01T00:00:00+00:00")
        { rows := [{ id := 1, timestamp := "2024-01-01T00:00:00+00:00",
                     source_app := none, content := "hello",
                     content_hash := "hello", capture_type := "clipboard" }],
          next_rowid := 2 }
        (Capture.new (fun s => s) 5 "hello" .Clipboard none) =
      ({ rows := [{ id := 1, timestamp := "2024-01-01T00:00:00+00:00",
                    source_app := none, content := "hello",
                    content_hash := "hello", capture_type := "clipboard" }],
         next_rowid := 2 }, none) := by
  constructor
  · exact (insert_dedups_on_content_hash.2.1 _ _ _ (by decide))
  · exact (insert_dedups_on_content_hash.1 _ _ _ (by decide))

/-- C2 witness: at a concrete emitted capture, the content hash is the
hash of the stored content and the truncation step produced that content. -/
theorem content_hash_is_of_stored_content_witness :
    ({ content := [49, 50, 51, 52, 53], content_hash := [49, 50, 51, 52, 53],
       timestamp := 0, source_app := none } : ClipboardCapture).content_hash =
      (fun s : List Nat => s) [49, 50, 51, 52, 53] ∧
    truncateStep [49, 50, 51, 52, 53, 54, 55, 56, 57, 48] 5 =
      .ok [49, 50, 51, 52, 53] :=
  content_hash_is_of_stored_content.1 (fun s => s) 0
    { poll_interval_ms := 500, min_content_length := 1, max_content_length := 5 }
    { running := true, last_hash := none }
    { running := true, last_hash := some [49, 50, 51, 52, 53] }
    [49, 50, 51, 52, 53, 54, 55, 56, 57, 48] none
    { content := [49, 50, 51, 52, 53], content_hash := [49, 50, 51, 52, 53],
      timestamp := 0, source_app := none } (by decide)

/-- C4: emitting a capture sets `last_hash` to the emitted content hash;
processing the same content again yields no capture and leaves the state
unchanged; and processing content whose hash differs from `last_hash`
updates `last_hash` and emits a capture. -/
theorem last_hash_suppresses_repeats :
    (∀ (hash : List Nat → List Nat) (now : Nat) (cfg : ClipboardMonitorConfig)
       (st st2 : ClipboardMonitorState) (text : List Nat)
       (app : Option (List Nat)) (cap : ClipboardCapture),
      ClipboardMonitor.process_text_with_source hash now cfg st text app =
        .ok (st2, some cap) →
      st2 = { st with last_hash := some cap.content_hash }) ∧
    (∀ (hash : List Nat → List Nat) (now now2 : Nat)
       (cfg : ClipboardMonitorConfig) (st st2 : ClipboardMonitorState)
       (text : List Nat) (app app2 : Option (List Nat)) (cap : ClipboardCapture),
      ClipboardMonitor.process_text_with_source hash now cfg st text app =
        .ok (st2, some cap) →
      ClipboardMonitor.process_text_with_source hash now2 cfg st2 text app2 =
        .ok (st2, none)) ∧
    (∀ (hash : List Nat → List Nat) (now : Nat) (cfg : ClipboardMonitorConfig)
       (st : ClipboardMonitorState) (text content : List Nat)
       (app : Option (List Nat)),
      ¬ text.length < cfg.min_content_length →
      truncateStep text cfg.max_content_length = .ok content →
      st.last_hash ≠ some (hash content) →
      ClipboardMonitor.process_text_with_source hash now cfg st text app =
        .ok ({ st with last_hash := some (hash content) },
             some (ClipboardCapture.new hash now content app))) := by
  refine ⟨?_, ?_, ?_⟩
  · intro hash now cfg st st2 text app cap h
    by_cases hlen : text.length < cfg.min_content_length
    · simp [ClipboardMonitor.process_text_with_source, hlen] at h
    · cases ht : truncateStep text cfg.max_content_length with
      | panicked => simp [ClipboardMonitor.process_text_with_source, hlen, ht] at h
      | ok content =>
        by_cases hsame : st.last_hash = some (hash content)
        · simp [ClipboardMonitor.process_text_with_source, hlen, ht, hsame] at h
        · simp [ClipboardMonitor.process_text_with_source, hlen, ht, hsame] at h
          obtain ⟨hst, hcap⟩ := h
          rw [← hst, ← hcap]
          rfl
  · intro hash now now2 cfg st st2 text app app2 cap h
    by_cases hlen : text.length < cfg.min_content_length
    · simp [ClipboardMonitor.process_text_with_source, hlen] at h
    · cases ht : truncateStep text cfg.max_content_length with
      | panicked => simp [ClipboardMonitor.process_text_with_source, hlen, ht] at h
      | ok content =>
        by_cases hsame : st.last_hash = some (hash content)
        · simp [ClipboardMonitor.process_text_with_source, hlen, ht, hsame] at h
        · simp [ClipboardMonitor.process_text_with_source, hlen, ht, hsame] at h
          obtain ⟨hst, -⟩ := h
          have hlast : st2.last_hash = some (hash content) := by
            rw [← hst]
          simp [ClipboardMonitor.process_text_with_source, hlen, ht, hlast]
  · intro hash now cfg st text content app hlen ht hne
    simp [ClipboardMonitor.process_text_with_source, hlen, ht, hne]

/-- C3: the minimum-length check happens before truncation, against the
untruncated byte length: content below the minimum is dropped with the
state unchanged, and `process_content` rejects it, even when the minimum
exceeds the maximum. -/
theorem min_length_checked_before_truncation
    (hash : List Nat → List Nat) (now : Nat) (cfg : ClipboardMonitorConfig)
    (st : ClipboardMonitorState) (text : List Nat) (app : Option (List Nat))
    (hshort : text.length < cfg.min_content_length) :
    ClipboardMonitor.process_text_with_source hash now cfg st text app =
      .ok (st, none) ∧
    process_content text cfg.min_content_length cfg.max_content_length =
      .ok none := by
  constructor
  · simp [ClipboardMonitor.process_text_with_source, hshort]
  · simp [process_content, hshort]

/-- C3 witness: with minimum 100 and maximum 10, a 50-byte string is
dropped entirely and never truncated. -/
theorem min_length_checked_before_truncation_witness :
    ClipboardMonitor.process_text_with_source (fun s => s) 0
        { poll_interval_ms := 500, min_content_length := 100,
          max_content_length := 10 }
        { running := true, last_hash := none } (List.replicate 50 120) none =
      .ok ({ running := true, last_hash := none }, none) ∧
    process_content (List.replicate 50 120) 100 10 = .ok none :=
  min_length_checked_before_truncation (fun s => s) 0
    { poll_interval_ms := 500, min_content_length := 100,
      max_content_length := 10 }
    { running := true, last_hash := none } (List.replicate 50 120) none
    (by decide)

/-- C4 witness: with the default configuration, re-processing "hello"
right after it was emitted is suppressed without touching the state, and
then processing "world" (whose hash differs) emits a second capture. -/
theorem last_hash_suppresses_repeats_witness :
    ClipboardMonitor.process_text_with_source (fun s => s) 1
        ClipboardMonitorConfig.default
        { running := true, last_hash := some [104, 101, 108, 108, 111] }
        [104, 101, 108, 108, 111] none =
      .ok ({ running := true, last_hash := some [104, 101, 108, 108, 111] },
           none) ∧
    ClipboardMonitor.process_text_with_source (fun s => s) 2
        ClipboardMonitorConfig.default
        { running := true, last_hash := some [104, 101, 108, 108, 111] }
        [119, 111, 114, 108, 100] none =
      .ok ({ running := true, last_hash := some [119, 111, 114, 108, 100] },
           some { content := [119, 111, 114, 108, 100],
                  content_hash := [119, 111, 114, 108, 100], timestamp := 2,
                  source_app := none }) := by
  constructor
  · exact last_hash_suppresses_repeats.2.1 (fun s => s) 0 1
      ClipboardMonitorConfig.default { running := true, last_hash := none }
      { running := true, last_hash := some [104, 101, 108, 108, 111] }
      [104, 101, 108, 108, 111] none none
      { content := [104, 101, 108, 108, 111],
        content_hash := [104, 101, 108, 108, 111], timestamp := 0,
        source_app := none } (by decide)
  · exact last_hash_suppresses_repeats.2.2 (fun s => s) 2
      ClipboardMonitorConfig.default
      { running := true, last_hash := some [104, 101, 108, 108, 111] }
      [119, 111, 114, 108, 100] [119, 111, 114, 108, 100] none
      (by decide) (by decide) (by decide)

/-- C6 counterexample: the truncation step is not total on multi-byte
text. The two-byte UTF-8 text [195, 169] (a single non-ASCII char) with
maximum length 1 makes the byte slice `&text[..1]` fall inside the char,
which panics, in `process_content`, in the shared truncation step, and in
the clipboard monitor processing path. -/
theorem truncation_panics_inside_multibyte_char :
    process_content [195, 169] 0 1 = .panicked ∧
    truncateStep [195, 169] 1 = .panicked ∧
    ClipboardMonitor.process_text_with_source (fun s => s) 0
        { poll_interval_ms := 500, min_content_length := 0,
          max_content_length := 1 }
        { running := true, last_hash := none } [195, 169] none =
      .panicked := by decide

/-- C6 amended: for input strictly longer than the maximum, the truncation
step totally produces the byte prefix of the first `max_length` bytes
whenever the cut index is a UTF-8 char boundary of the text (in
particular, always on ASCII text); off a char boundary the byte slice
panics instead. -/
theorem truncation_is_byte_take_on_char_boundary
    (text : List Nat) (max_length : Nat)
    (hlong : text.length > max_length)
    (hb : isCharBoundary text max_length = true) :
    truncateStep text max_length = .ok (text.take max_length) ∧
    (∀ min_length, ¬ text.length < min_length →
      process_content text min_length max_length =
        .ok (some (text.take max_length))) := by
  have hslice : byteSlice text max_length = .ok (text.take max_length) := by
    simp [byteSlice, hb]
  constructor
  · simp [truncateStep, hlong, hslice]
  · intro min_length hmin
    simp [process_content, truncateStep, hmin, hlong, hslice]

/-- C6 amended witness: ten ASCII bytes cut at 5 (a char boundary) produce
the first five bytes. -/
theorem truncation_is_byte_take_on_char_boundary_witness :
    truncateStep [49, 50, 51, 52, 53, 54, 55, 56, 57, 48] 5 =
      .ok [49, 50, 51, 52, 53] ∧
    process_content [49, 50, 51, 52, 53, 54, 55, 56, 57, 48] 1 5 =
      .ok (some [49, 50, 51, 52, 53]) := by
  have h := truncation_is_byte_take_on_char_boundary
    [49, 50, 51, 52, 53, 54, 55, 56, 57, 48] 5 (by decide) (by decide)
  exact ⟨h.1, h.2 1 (by decide)⟩

/-- C7 counterexample: the Mac adapter monitors do not return success when
`start` is called while already running; `MacClipboardMonitor::start`
returns the error "Already running". -/
theorem mac_start_while_running_returns_error :
    (MacClipboardMonitor.start_entry true).2 =
      .failed "Already running" ∧
    (MacClipboardMonitor.start_entry true).2.is_ok = false := by decide

/-- C7 amended: calling `start` while already running is a warn-and-return
no-op returning success, with the monitor left running, for the inner
`ClipboardMonitor` and (permission granted) `AccessibilityMonitor`; the
Mac adapter variants instead return the error "Already running" while
also leaving the running flag set. -/
theorem start_while_running_by_variant :
    ClipboardMonitor.start_entry true = (true, .warned_already_running) ∧
    AccessibilityMonitor.start_entry true true =
      (true, .warned_already_running) ∧
    (ClipboardMonitor.start_entry true).2.is_ok = true ∧
    (AccessibilityMonitor.start_entry true true).2.is_ok = true ∧
    MacClipboardMonitor.start_entry true = (true, .failed "Already running") ∧
    MacAccessibilityMonitor.start_entry true true =
      (true, .failed "Already running") ∧
    (MacClipboardMonitor.start_entry true).2.is_ok = false ∧
    (MacAccessibilityMonitor.start_entry true true).2.is_ok = false := by
  decide

/-- C9: `is_app_excluded` holds exactly when some entry of the exclusion
list equals the whole app name under ASCII-case-insensitive comparison;
with the default exclusion list, a case variant of "Terminal" is excluded
while names merely containing "Terminal" as a proper substring are not. -/
theorem app_exclusion_is_case_insensitive_exact_match :
    (∀ (f : PrivacyFilter) (app_name : String),
      f.is_app_excluded app_name = true ↔
        ∃ e ∈ f.config.excluded_apps,
          e.data.map asciiLower = app_name.data.map asciiLower) ∧
    (PrivacyFilter.with_config (fun _ => none) trivialBuiltins
        FilterConfig.default).is_app_excluded "tErMiNaL" = true ∧
    (PrivacyFilter.with_config (fun _ => none) trivialBuiltins
        FilterConfig.default).is_app_excluded "MyTerminal" = false ∧
    (PrivacyFilter.with_config (fun _ => none) trivialBuiltins
        FilterConfig.default).is_app_excluded "Terminals" = false := by
  refine ⟨?_, by decide, by decide, by decide⟩
  intro f app_name
  simp [PrivacyFilter.is_app_excluded, eqIgnoreAsciiCase, List.any_eq_true]

/-- Helper: mapping an everywhere-successful `Except` function over a list
succeeds with the mapped list. -/
theorem list_mapM_ok_of_ok {α β : Type} (f : α → Except String β) (g : α → β)
    (hf : ∀ a, f a = .ok (g a)) (l : List α) : l.mapM f = .ok (l.map g) := by
  induction l with
  | nil => rfl
  | cons a t ih => rw [List.mapM_cons, hf a, ih]; rfl

/-- The capture a row decodes to (the success value of `row_to_capture`). -/
def decodedCapture (parse_rfc3339 : String → Option Nat) (now : Nat)
    (row : Row) : Capture :=
  { id := some row.id, timestamp := (parse_rfc3339 row.timestamp).getD now,
    source_app := row.source_app, content := row.content,
    content_hash := row.content_hash,
    capture_type := parseCaptureType row.capture_type }

/-- C10: decoding a stored row is total: `row_to_capture` always succeeds,
an unknown capture-type string decodes as `Clipboard`, a timestamp that
fails RFC3339 parsing is replaced by the current time, and consequently
`get` and `get_recent` return `Ok` on any rows. -/
theorem row_decoding_is_total :
    (∀ (parse_rfc3339 : String → Option Nat) (now : Nat) (row : Row),
      Storage.row_to_capture parse_rfc3339 now row =
        .ok (decodedCapture parse_rfc3339 now row)) ∧
    (∀ (s : String), s ≠ "clipboard" → s ≠ "text_field" → s ≠ "keystroke" →
      parseCaptureType s = .Clipboard) ∧
    (∀ (parse_rfc3339 : String → Option Nat) (now : Nat) (row : Row),
      parse_rfc3339 row.timestamp = none →
      (decodedCapture parse_rfc3339 now row).timestamp = now) ∧
    (∀ (parse_rfc3339 : String → Option Nat) (now : Nat) (db : StorageDB)
       (id : Int), (Storage.get parse_rfc3339 now db id).isOk = true) ∧
    (∀ (parse_rfc3339 : String → Option Nat) (now : Nat) (db : StorageDB)
       (limit : Nat),
      Storage.get_recent parse_rfc3339 now db limit =
        .ok (((sortByTsDesc db.rows).take limit).map
          (decodedCapture parse_rfc3339 now))) := by
  refine ⟨?_, ?_, ?_, ?_, ?_⟩
  · intro parse_rfc3339 now row
    rfl
  · intro s h1 h2 h3
    simp [parseCaptureType, h1, h2, h3]
  · intro parse_rfc3339 now row hp
    simp [decodedCapture, hp]
  · intro parse_rfc3339 now db id
    cases hf : db.rows.find? (fun r => r.id == id) with
    | none => simp [Storage.get, hf, Except.isOk, Except.toBool]
    | some row =>
      simp [Storage.get, hf, Storage.row_to_capture, Except.map, Except.isOk,
        Except.toBool]
  · intro parse_rfc3339 now db limit
    exact list_mapM_ok_of_ok _ _ (fun r => rfl) _

/-- C10 witness: a row with a junk capture-type string and an unparseable
timestamp decodes successfully, with type `Clipboard` and the current time
as timestamp. -/
theorem row_decoding_is_total_witness :
    Storage.row_to_capture (fun _ => none) 42
        { id := 7, timestamp := "not-a-date", source_app := none,
          content := "c", content_hash := "h", capture_type := "bogus" } =
      .ok (decodedCapture (fun _ => none) 42
        { id := 7, timestamp := "not-a-date", source_app := none,
          content := "c", content_hash := "h", capture_type := "bogus" }) ∧
    parseCaptureType "bogus" = .Clipboard ∧
    (decodedCapture (fun _ => none) 42
        { id := 7, timestamp := "not-a-date", source_app := none,
          content := "c", content_hash := "h",
          capture_type := "bogus" }).timestamp = 42 ∧
    (Storage.get (fun _ => none) 42
        { rows := [{ id := 7, timestamp := "not-a-date", source_app := none,
                     content := "c", content_hash := "h",
                     capture_type := "bogus" }], next_rowid := 8 } 7).isOk =
      true := by
  refine ⟨?_, ?_, ?_, ?_⟩
  · exact row_decoding_is_total.1 (fun _ => none) 42 _
  · exact row_decoding_is_total.2.1 "bogus" (by decide) (by decide) (by decide)
  · exact row_decoding_is_total.2.2.1 (fun _ => none) 42
      { id := 7, timestamp := "not-a-date", source_app := none,
        content := "c", content_hash := "h", capture_type := "bogus" } rfl
  · exact row_decoding_is_total.2.2.2.1 (fun _ => none) 42 _ 7

/-- The custom regexes as patterns named from index `i` upward; generalises
`customPatternList` so the custom loop can be characterised by induction. -/
def customPatternListFrom (i : Nat) (rs : List CompiledRegex) : List FilterPattern :=
  (rs.enumFrom i).map (fun ir =>
    { name := "custom_" ++ toString ir.1, description := "", regex := ir.2 })

/-- Helper: the built-in loop of `filter_block` finds the name of the first
matching pattern. -/
theorem firstBuiltinMatch_eq_find (ps : List FilterPattern) (content : String) :
    firstBuiltinMatch ps content =
      (ps.find? (fun p => p.matches content)).map (fun p => p.name) := by
  induction ps with
  | nil => rfl
  | cons p ps ih =>
    by_cases h : p.matches content
    · simp [firstBuiltinMatch, List.find?_cons, h]
    · simp [firstBuiltinMatch, List.find?_cons, h, ih]

/-- Helper: the custom loop of `filter_block` finds the index-derived name
of the first matching custom regex. -/
theorem firstCustomMatch_eq_find (rs : List CompiledRegex) (content : String) :
    ∀ i, firstCustomMatch i rs content =
      ((customPatternListFrom i rs).find?
        (fun p => p.matches content)).map (fun p => p.name) := by
  induction rs with
  | nil => intro i; rfl
  | cons r rs ih =>
    intro i
    have hcons : customPatternListFrom i (r :: rs) =
        { name := "custom_" ++ toString i, description := "", regex := r } ::
          customPatternListFrom (i + 1) rs := rfl
    by_cases h : r.is_match content
    · simp [firstCustomMatch, hcons, List.find?_cons, FilterPattern.matches, h]
    · simp [firstCustomMatch, hcons, List.find?_cons, FilterPattern.matches, h,
        ih (i + 1)]

/-- C5: with the filter enabled and in Block mode, `filter` returns
`Blocked` with the name of the first matching pattern where all built-in
patterns precede all custom patterns (so later patterns are not
consulted), and `Passed` when no pattern matches; and the built-in
patterns of a constructed filter carry the declared names in their
declared order. -/
theorem block_mode_first_match_wins :
    (∀ (f : PrivacyFilter) (content : String),
      f.config.enabled = true → f.config.mode = .Block →
      f.filter content =
        match (f.patterns ++ customPatternList f.custom_regexes).find?
            (fun p => p.matches content) with
        | some p => FilterResult.Blocked p.name
        | none => FilterResult.Passed) ∧
    (∀ (compile : String → Option CompiledRegex) (c : BuiltinRegexes)
       (cfg : FilterConfig), cfg.use_builtin_patterns = true →
      (PrivacyFilter.with_config compile c cfg).patterns.map
          (fun p => p.name) = builtin_pattern_names) := by
  constructor
  · intro f content hen hmode
    have hcustom : customPatternList f.custom_regexes =
        customPatternListFrom 0 f.custom_regexes := rfl
    rw [PrivacyFilter.filter, hen, hmode]
    simp only [Bool.not_true, Bool.false_eq_true, if_false]
    rw [PrivacyFilter.filter_block, firstBuiltinMatch_eq_find,
      firstCustomMatch_eq_find, List.find?_append, hcustom]
    cases hfb : (f.patterns.find? (fun p => p.matches content)) with
    | some p => simp
    | none =>
      simp only [Option.map_none, Option.none_or]
      cases hfc : ((customPatternListFrom 0 f.custom_regexes).find?
          (fun p => p.matches content)) with
      | some p => simp
      | none => simp
  · intro compile c cfg hcfg
    simp [PrivacyFilter.with_config, hcfg, builtin_patterns,
      builtin_pattern_names]

/-- A compiled regex matching exactly the content "s", used to exercise
the first-match semantics at a concrete input. -/
def matchesS : CompiledRegex :=
  { is_match := fun content => content == "s", replace_all := fun s _ => s }

/-- Built-in regex slots where both `aws_key` and `ssn` match "s". -/
def awsAndSsnBuiltins : BuiltinRegexes :=
  { api_key_generic := neverRegex, bearer_token := neverRegex,
    aws_key := matchesS, aws_secret := neverRegex,
    password_field := neverRegex, credit_card := neverRegex,
    ssn := matchesS, private_key := neverRegex, github_token := neverRegex,
    slack_token := neverRegex, connection_string := neverRegex }

/-- The C5 witness filter: built-ins where `aws_key` and `ssn` both match
"s", plus one custom pattern that also matches "s". -/
def blockWitnessFilter : PrivacyFilter :=
  PrivacyFilter.with_config (fun _ => some matchesS) awsAndSsnBuiltins
    { enabled := true, mode := .Block, use_builtin_patterns := true,
      custom_patterns := ["s"], excluded_apps := [],
      redaction_placeholder := "[REDACTED]" }

/-- C5 witness: although `ssn` and the custom pattern also match, the
first matching pattern in declared order (`aws_key`) names the block; on
non-matching content the filter passes. -/
theorem block_mode_first_match_wins_witness :
    blockWitnessFilter.filter "s" = .Blocked "aws_key" ∧
    blockWitnessFilter.filter "safe" = .Passed ∧
    blockWitnessFilter.patterns.map (fun p => p.name) =
      builtin_pattern_names := by
  refine ⟨?_, ?_, ?_⟩
  · rw [block_mode_first_match_wins.1 blockWitnessFilter "s" rfl rfl]
    rfl
  · rw [block_mode_first_match_wins.1 blockWitnessFilter "safe" rfl rfl]
    rfl
  · exact block_mode_first_match_wins.2 (fun _ => some matchesS)
      awsAndSsnBuiltins _ rfl

/-- Helper: a row survives the keep-recent filter exactly when it is among
the first `n` rows of the timestamp-descending sort (row ids must be
distinct, as SQLite rowids are). -/
theorem mem_keepFilter_iff (L : List Row) (n : Nat)
    (hids : (L.map (fun r => r.id)).Nodup) (r : Row) :
    r ∈ L.filter (fun x =>
        (((sortByTsDesc L).take n).map (fun y => y.id)).contains x.id) ↔
      r ∈ (sortByTsDesc L).take n := by
  have hperm : (sortByTsDesc L).Perm L := List.perm_insertionSort rowTsGe L
  constructor
  · intro hr
    obtain ⟨hrL, hpr⟩ := List.mem_filter.mp hr
    have hid : r.id ∈ ((sortByTsDesc L).take n).map (fun y => y.id) := by
      simpa [List.contains] using hpr
    obtain ⟨s, hs_take, hsid⟩ := List.mem_map.mp hid
    have hsL : s ∈ L := hperm.mem_iff.mp (List.mem_of_mem_take hs_take)
    have hrs : r = s := List.inj_on_of_nodup_map hids hrL hsL hsid.symm
    rw [hrs]
    exact hs_take
  · intro hr
    refine List.mem_filter.mpr
      ⟨hperm.mem_iff.mp (List.mem_of_mem_take hr), ?_⟩
    simpa [List.contains] using List.mem_map.mpr ⟨r, hr, rfl⟩

/-- Helper: the keep-recent filter keeps exactly `min n L.length` rows. -/
theorem length_keepFilter (L : List Row) (n : Nat)
    (hids : (L.map (fun r => r.id)).Nodup) :
    (L.filter (fun x =>
        (((sortByTsDesc L).take n).map (fun y => y.id)).contains x.id)).length =
      min n L.length := by
  have hperm : (sortByTsDesc L).Perm L := List.perm_insertionSort rowTsGe L
  have hnodupS : (sortByTsDesc L).Nodup :=
    hperm.nodup_iff.mpr (List.Nodup.of_map _ hids)
  have hfnodup : (L.filter (fun x =>
      (((sortByTsDesc L).take n).map (fun y => y.id)).contains x.id)).Nodup :=
    (List.Nodup.of_map _ hids).filter _
  have htnodup : ((sortByTsDesc L).take n).Nodup :=
    ((sortByTsDesc L).take_sublist n).nodup hnodupS
  have hperm2 : (L.filter (fun x =>
      (((sortByTsDesc L).take n).map (fun y => y.id)).contains x.id)).Perm
        ((sortByTsDesc L).take n) :=
    (List.perm_ext_iff_of_nodup hfnodup htnodup).mpr
      (mem_keepFilter_iff L n hids)
  rw [hperm2.length_eq, List.length_take, hperm.length_eq]

/-- C8: `prune_keep_recent n` reports `length - min n length` deleted
rows, keeps exactly `min n length` rows, keeps only existing rows, every
kept row has a timestamp at least that of every deleted row (the `n`
newest remain), and a store holding at most `n` rows is left untouched
with a count of zero. -/
theorem prune_keep_recent_keeps_n_newest
    (db : StorageDB) (n : Nat)
    (hids : (db.rows.map (fun r => r.id)).Nodup) :
    (Storage.prune_keep_recent db n).2 =
      db.rows.length - min n db.rows.length ∧
    (Storage.prune_keep_recent db n).1.rows.length = min n db.rows.length ∧
    (∀ r ∈ (Storage.prune_keep_recent db n).1.rows, r ∈ db.rows) ∧
    (∀ r ∈ (Storage.prune_keep_recent db n).1.rows,
      ∀ s ∈ db.rows, s ∉ (Storage.prune_keep_recent db n).1.rows →
        s.timestamp ≤ r.timestamp) ∧
    (db.rows.length ≤ n → Storage.prune_keep_recent db n = (db, 0)) := by
  have hrows : (Storage.prune_keep_recent db n).1.rows =
      db.rows.filter (fun x =>
        (((sortByTsDesc db.rows).take n).map (fun y => y.id)).contains x.id) :=
    rfl
  have hcnt : (Storage.prune_keep_recent db n).2 =
      db.rows.length - (Storage.prune_keep_recent db n).1.rows.length := rfl
  have hlen : (Storage.prune_keep_recent db n).1.rows.length =
      min n db.rows.length := by
    rw [hrows]
    exact length_keepFilter db.rows n hids
  refine ⟨?_, hlen, ?_, ?_, ?_⟩
  · rw [hcnt, hlen]
  · intro r hr
    rw [hrows] at hr
    exact (List.mem_filter.mp hr).1
  · intro r hr s hsL hs
    rw [hrows] at hr hs
    have hrt : r ∈ (sortByTsDesc db.rows).take n :=
      (mem_keepFilter_iff db.rows n hids r).mp hr
    have hst : s ∉ (sortByTsDesc db.rows).take n := fun hc =>
      hs ((mem_keepFilter_iff db.rows n hids s).mpr hc)
    have hsS : s ∈ (sortByTsDesc db.rows).take n ++ (sortByTsDesc db.rows).drop n := by
      rw [List.take_append_drop]
      exact (List.perm_insertionSort rowTsGe db.rows).mem_iff.mpr hsL
    have hsd : s ∈ (sortByTsDesc db.rows).drop n := by
      rcases List.mem_append.mp hsS with h | h
      · exact absurd h hst
      · exact h
    have hs2 : List.Pairwise rowTsGe
        ((sortByTsDesc db.rows).take n ++ (sortByTsDesc db.rows).drop n) := by
      rw [List.take_append_drop]
      exact List.sorted_insertionSort rowTsGe db.rows
    exact (List.pairwise_append.mp hs2).2.2 r hrt s hsd
  · intro hle
    have hSlen : (sortByTsDesc db.rows).length = db.rows.length :=
      (List.perm_insertionSort rowTsGe db.rows).length_eq
    have htake : (sortByTsDesc db.rows).take n = sortByTsDesc db.rows :=
      List.take_of_length_le (by rw [hSlen]; exact hle)
    have hall : ∀ r ∈ db.rows,
        ((((sortByTsDesc db.rows).take n).map (fun y => y.id)).contains r.id) =
          true := by
      intro r hr
      have hrS : r ∈ (sortByTsDesc db.rows).take n := by
        rw [htake]
        exact (List.perm_insertionSort rowTsGe db.rows).mem_iff.mpr hr
      simpa [List.contains] using List.mem_map.mpr ⟨r, hrS, rfl⟩
    have hfilter : db.rows.filter (fun x =>
        (((sortByTsDesc db.rows).take n).map (fun y => y.id)).contains x.id) =
          db.rows :=
      List.filter_eq_self.mpr hall
    refine Prod.ext_iff.mpr ⟨?_, ?_⟩
    · have h1 : (Storage.prune_keep_recent db n).1 =
          { db with rows := db.rows.filter (fun x =>
            (((sortByTsDesc db.rows).take n).map
              (fun y => y.id)).contains x.id) } := rfl
      rw [h1, hfilter]
    · rw [hcnt, hrows, hfilter, Nat.sub_self]

/-- A concrete row for the C8 witness store. -/
def wrow (i : Int) (ts : String) : Row :=
  { id := i, timestamp := ts, source_app := none, content := "",
    content_hash := "", capture_type := "clipboard" }

/-- A concrete ten-row store for the C8 witness. -/
def tenRowDB : StorageDB :=
  { rows := [wrow 1 "a", wrow 2 "b", wrow 3 "c", wrow 4 "d", wrow 5 "e",
             wrow 6 "f", wrow 7 "g", wrow 8 "h", wrow 9 "i", wrow 10 "j"],
    next_rowid := 11 }

/-- C8 witness: pruning a ten-row store to five deletes exactly five rows
and keeps exactly five. -/
theorem prune_keep_recent_keeps_n_newest_witness :
    (Storage.prune_keep_recent tenRowDB 5).2 = 5 ∧
    (Storage.prune_keep_recent tenRowDB 5).1.rows.length = 5 := by
  have h := prune_keep_recent_keeps_n_newest tenRowDB 5 (by decide)
  refine ⟨?_, ?_⟩
  · rw [h.1]; decide
  · rw [h.2.1]; decide
